import Mathlib

/-!
Verification of the certificate backend (app.py) against its specification.

The Python source is shallowly embedded: strings are Lean `String`
(lists of characters), the in-memory roster dictionary `EMAIL_TO_NAME`
is a function `String → Option String`, CSV cells are `Option String`
(`none` models a pandas NaN), and the environment (template image, font
file, SMTP variables, external feedback store) is passed explicitly.
-/

/-! ## Definitions -/

/-! ### Email normalization (app.py lines 66-67 and 176-177)

The Python code is `str(val).strip().lower().replace(" ", "")`:
strip surrounding whitespace, lowercase, then remove every interior
space character U+0020.  `str.strip` removes the ASCII whitespace
characters space, tab, newline, carriage return, vertical tab and form
feed (the full Unicode set is abstracted to these six, which is exact
on ASCII input); `str.lower` lowercases (on basic latin letters it maps
A-Z to a-z, which is what `Char.toLower` does); `str.replace(" ", "")`
removes only the space character itself, nothing else. -/

def isPyWS (c : Char) : Bool :=
  c.toNat == 32 || c.toNat == 9 || c.toNat == 10 || c.toNat == 13 ||
    c.toNat == 11 || c.toNat == 12

/-- Python `str.strip()` on a list of characters: drop whitespace from
the front, then from the back. -/
def pyStripList (l : List Char) : List Char :=
  (((l.dropWhile isPyWS).reverse.dropWhile isPyWS)).reverse

/-- Python `str.replace(" ", "")`: remove every space character. -/
def removeSpaces (l : List Char) : List Char :=
  l.filter (fun c => !(c == ' '))

/-- Character-list core of the normalization `strip().lower().replace(" ", "")`. -/
def normList (l : List Char) : List Char :=
  removeSpaces ((pyStripList l).map Char.toLower)

/-- Python `str.strip()` as a `String` operation. -/
def pyStripStr (s : String) : String := ⟨pyStripList s.data⟩

/-- The email normalization used by every endpoint and by the roster
index build: `email.strip().lower().replace(" ", "")`. -/
def pyNormalize (s : String) : String := ⟨normList s.data⟩

/-- The normalization exactly as the original claim words it: trim
surrounding whitespace, lowercase, and remove ALL interior whitespace
characters. -/
def claimedNormalize (s : String) : String :=
  ⟨((pyStripList s.data).map Char.toLower).filter (fun c => !(isPyWS c))⟩

/-- The normalization as amended: trim surrounding whitespace,
lowercase, and remove every interior space (U+0020) character only;
other interior whitespace such as a tab survives. -/
def amendedNormalize (s : String) : String :=
  ⟨(((s.data.dropWhile isPyWS).reverse.dropWhile isPyWS).reverse.map
      Char.toLower).filter (fun c => c != ' ')⟩

/-- A character list with no leading whitespace. -/
def noLeadWS (l : List Char) : Prop := ∀ a, l.head? = some a → isPyWS a = false

/-- A character list with no trailing whitespace. -/
def noTrailWS (l : List Char) : Prop := ∀ a, l.getLast? = some a → isPyWS a = false

/-! ### The validate-email endpoint (app.py lines 174-198)

`verify_email` normalizes the submitted email and looks it up in the
in-memory roster dictionary; a hit answers with the stored name and the
result of the external prior-submission check (a network effect, passed
here as the boolean `hasSubmitted`; the code defaults it to `false`
when the external store is unconfigured or unreachable), a miss raises
a 404. -/

inductive VerifyResult where
  | ok (name : String) (hasSubmitted : Bool)
  | notFound (status : Nat)
deriving DecidableEq

def verify_email (idx : String → Option String) (hasSubmitted : Bool)
    (rawEmail : String) : VerifyResult :=
  let email := pyNormalize rawEmail
  match idx email with
  | some n => .ok n hasSubmitted
  | none => .notFound 404

/-! ### The roster index build (app.py lines 49-76, startup_event)

A CSV source is a header row plus data rows; a cell is `Option String`
(`none` is a pandas NaN, `some s` is the cell rendered by `str`).
Column discovery strips each header name and scans, in column order,
for the first one containing the substring "email" case-insensitively,
and likewise "name"; pandas label-based row access is modelled by
positional access at the discovered index.  Rows whose email cell is
NaN are skipped; `str` of a NaN name cell is the literal string "nan".
The dictionary is modelled as a function updated row by row, so a later
row with the same normalized email overwrites an earlier one exactly as
a Python dict assignment does. -/

structure Table where
  header : List String
  rows : List (List (Option String))

def startsWithChars : List Char → List Char → Bool
  | [], _ => true
  | _ :: _, [] => false
  | a :: as, b :: bs => a == b && startsWithChars as bs

/-- Python `needle in hay` for strings (substring containment). -/
def containsSub (needle : List Char) : List Char → Bool
  | [] => startsWithChars needle []
  | c :: t => startsWithChars needle (c :: t) || containsSub needle t

/-- `next((c for c in df.columns if needle in c.lower()), None)` after
`df.columns = [c.strip() for c in df.columns]`, as a column position. -/
def discoverIdx (needle : String) (header : List String) : Option Nat :=
  (header.map pyStripStr).findIdx? (fun c => containsSub needle.data (c.data.map Char.toLower))

/-- Python `str(cell)` where a NaN cell prints as "nan". -/
def cellStr : Option String → String
  | none => "nan"
  | some s => s

/-- The display name stored for a row: `str(row[name_col]).strip()`. -/
def storedName (ni : Nat) (row : List (Option String)) : String :=
  pyStripStr (cellStr (row[ni]?).join)

/-- The normalized email key of a row, `none` when the email cell is NaN. -/
def rowKey (ei : Nat) (row : List (Option String)) : Option String :=
  ((row[ei]?).join).map pyNormalize

/-- One iteration of the row loop: skip a NaN email, otherwise assign
`EMAIL_TO_NAME[normalized email] = stripped name`. -/
def indexStep (ei ni : Nat) (m : String → Option String)
    (row : List (Option String)) : String → Option String :=
  match (row[ei]?).join with
  | none => m
  | some v => fun q => if q = pyNormalize v then some (storedName ni row) else m q

def buildIndexRows (ei ni : Nat) (rows : List (List (Option String))) :
    String → Option String :=
  rows.foldl (indexStep ei ni) (fun _ => none)

/-- The whole startup build: `none` models a missing or unreadable CSV
file (the exception handler leaves the dictionary empty); a failed
column discovery is only logged and also leaves the dictionary empty. -/
def buildIndex : Option Table → String → Option String
  | none, _ => none
  | some t, k =>
    match discoverIdx "email" t.header, discoverIdx "name" t.header with
    | some ei, some ni => buildIndexRows ei ni t.rows k
    | _, _ => none

/-! ### The certificate renderer (app.py lines 92-146, create_certificate)

The environment records whether the template image exists and its size
is readable (and then that size), whether the bundled font file exists
and registers, and the font metric function `stringWidth`.  Dimensions
and coordinates are rationals; reportlab places text relative to the
bottom-left origin, so `textY = 235` is 235 units from the bottom. -/

structure RenderEnv where
  templateSize : Option (ℚ × ℚ)
  fontOk : Bool
  stringWidth : String → String → ℚ → ℚ

structure CertOutput where
  filename : String
  outputPath : String
  pageW : ℚ
  pageH : ℚ
  fontName : String
  fontSize : ℚ
  fillColor : String
  textX : ℚ
  textY : ℚ
  text : String

/-- reportlab A4 in points: (210mm, 297mm) at 72 points per inch. -/
def A4size : ℚ × ℚ := (75600 / 127, 106920 / 127)

/-- reportlab `landscape`: reorder the pair so the larger comes first. -/
def landscapeOf (p : ℚ × ℚ) : ℚ × ℚ := if p.1 < p.2 then (p.2, p.1) else p

/-- The fixed output directory (the absolute prefix `os.path.dirname(__file__)`
is abstracted away). -/
def GENERATED_DIR : String := "generated"

/-- Python `name.replace(" ", "_")`: the pattern is the single space
character, so each space character becomes an underscore. -/
def pyReplaceSpaceUnderscore (s : String) : String :=
  ⟨s.data.map (fun c => if c = ' ' then '_' else c)⟩

/-- The filename scheme as the spec words it: every space replaced by an
underscore. -/
def specUnderscoreName (s : String) : String :=
  ⟨s.data.map (fun c => if c = ' ' then '_' else c)⟩

def create_certificate (env : RenderEnv) (name : String) : CertOutput :=
  let filename := "certificate_" ++ pyReplaceSpaceUnderscore name ++ ".pdf"
  let outputPath := GENERATED_DIR ++ "/" ++ filename
  let wh := match env.templateSize with
    | some s => s
    | none => landscapeOf A4size
  let fontName := if env.fontOk then "Poppins-Bold" else "Helvetica-Bold"
  let textWidth := env.stringWidth name fontName 25
  { filename := filename
    outputPath := outputPath
    pageW := wh.1
    pageH := wh.2
    fontName := fontName
    fontSize := 25
    fillColor := "#000"
    textX := ((wh.1 - textWidth) / 2) + 50
    textY := 235
    text := name }

/-! ### The email dispatcher (app.py lines 148-172, send_email_async)

The function returns before any network interaction when `SMTP_USER` or
`SMTP_PASSWORD` is unset (or empty, since Python tests truthiness);
otherwise it builds the message and attempts one `aiosmtplib.send` to
`SMTP_HOST` on port 587 whose failure is caught and logged.  The model
records which of the two happened. -/

structure SmtpEnv where
  host : Option String
  user : Option String
  password : Option String
deriving DecidableEq

structure EmailMsg where
  sender : String
  recipient : String
  subject : String
  body : String
  attachmentName : String
deriving DecidableEq

inductive SendOutcome where
  | noop
  | attempted (msg : EmailMsg) (hostname : Option String) (port : Nat)
deriving DecidableEq

/-- Python truthiness of an `os.getenv` result. -/
def getenvTruthy : Option String → Bool
  | none => false
  | some s => !s.isEmpty

/-- `os.path.basename` for forward slashes. -/
def pyBasename (p : String) : String := (p.splitOn "/").getLastD p

def send_email_async (env : SmtpEnv) (recipient : String) (pdfPath : String) :
    SendOutcome :=
  if !(getenvTruthy env.user) || !(getenvTruthy env.password) then .noop
  else
    .attempted
      { sender := env.user.getD ""
        recipient := recipient
        subject := "Your Certificate - Valli Hospital"
        body := "Thank you for your feedback! Here is your certificate."
        attachmentName := pyBasename pdfPath }
      env.host 587

/-! ### The render-certificate endpoint (app.py lines 233-245)

The entire handler body sits inside `try`, including the
`raise HTTPException(status_code=404, ...)` for an unknown email;
`except Exception` catches every exception, `HTTPException` included
(it subclasses `Exception`), and re-raises it as a 500 whose detail is
`str(e)`.  Rendering itself may fail; that is the `render` parameter
returning `Except.error`. -/

inductive HttpResponse where
  | file (path : String)
  | httpError (status : Nat) (detail : String)
deriving DecidableEq

inductive PyExn where
  | http (status : Nat) (detail : String)
  | err (msg : String)
deriving DecidableEq

/-- Python `str(e)`: a starlette `HTTPException` prints as
`"{status_code}: {detail}"`. -/
def exnStr : PyExn → String
  | .http s d => toString s ++ ": " ++ d
  | .err m => m

/-- The `try` block of the handler. -/
def generateCertificateBody (idx : String → Option String)
    (render : String → Except String String) (email : String) :
    Except PyExn HttpResponse :=
  match idx (pyNormalize email) with
  | none => .error (.http 404 "Name not found")
  | some name =>
    if name = "" then .error (.http 404 "Name not found")
    else
      match render name with
      | .ok p => .ok (.file p)
      | .error m => .error (.err m)

def generate_certificate_endpoint (idx : String → Option String)
    (render : String → Except String String) (email : String) : HttpResponse :=
  match generateCertificateBody idx render email with
  | .ok r => r
  | .error e => .httpError 500 (exnStr e)

/-! ### The admin login (app.py lines 262-267) -/

inductive LoginResult where
  | success (status token : String)
  | httpError (status : Nat) (detail : String)
deriving DecidableEq

def admin_login (username password : String) : LoginResult :=
  if username = "admin" ∧ password = "admin123" then .success "success" "fake-jwt-token"
  else .httpError 401 "Invalid credentials"

/-! ### The admin stats endpoint (app.py lines 293-312)

A feedback record carries an email and an integer rating (the five text
answers play no role here).  `rating_counts` starts as the dict
`{1:0, 2:0, 3:0, 4:0, 5:0}` and is updated from `value_counts()`: the
model lists the distinct ratings with their multiplicities and folds a
dict assignment (update in place when the key is present, append
otherwise) over them.  `average_rating` is `round(df["rating"].mean(), 2)`
— Python bankers rounding to two decimals, modelled over ℚ — and stays
0 for an empty record list. -/

structure FeedbackRecord where
  email : String
  rating : Int
deriving DecidableEq

structure AdminStats where
  total_feedback : Nat
  average_rating : ℚ
  rating_counts : List (Int × Nat)
deriving DecidableEq

/-- Python dict assignment `d[k] = v` on an association list. -/
def dictInsert (d : List (Int × Nat)) (kv : Int × Nat) : List (Int × Nat) :=
  if kv.1 ∈ d.map Prod.fst then
    d.map (fun p => if p.1 = kv.1 then (p.1, kv.2) else p)
  else d ++ [kv]

/-- Round half to even (Python `round`), modelled over ℚ. -/
def roundHalfEven (q : ℚ) : ℤ :=
  if q - ⌊q⌋ < 1 / 2 then ⌊q⌋
  else if q - ⌊q⌋ > 1 / 2 then ⌊q⌋ + 1
  else if ⌊q⌋ % 2 = 0 then ⌊q⌋ else ⌊q⌋ + 1

/-- Python `round(x, 2)`. -/
def round2 (q : ℚ) : ℚ := (roundHalfEven (q * 100) : ℚ) / 100

def get_admin_stats (records : List FeedbackRecord) : AdminStats :=
  let ratings := records.map (fun r => r.rating)
  let valueCounts := ratings.dedup.map (fun k => (k, ratings.count k))
  { total_feedback := records.length
    average_rating :=
      if records.isEmpty then 0
      else round2 ((records.map (fun r => (r.rating : ℚ))).sum / (records.length : ℚ))
    rating_counts := valueCounts.foldl dictInsert [(1, 0), (2, 0), (3, 0), (4, 0), (5, 0)] }

/-! ## Theorems -/

/-! ### Character-level lemmas -/

theorem char_toNat_ofNat (n : Nat) (h : n < 55296) : (Char.ofNat n).toNat = n := by
  have hv : n.isValidChar := Or.inl h
  rw [Char.ofNat, dif_pos hv]
  rfl

theorem toLower_eq (c : Char) :
    c.toLower = if 65 ≤ c.toNat ∧ c.toNat ≤ 90 then Char.ofNat (c.toNat + 32) else c := rfl

theorem toNat_toLower (c : Char) :
    (Char.toLower c).toNat =
      if 65 ≤ c.toNat ∧ c.toNat ≤ 90 then c.toNat + 32 else c.toNat := by
  rw [toLower_eq]
  by_cases h : 65 ≤ c.toNat ∧ c.toNat ≤ 90
  · rw [if_pos h, if_pos h]
    exact char_toNat_ofNat _ (by omega)
  · rw [if_neg h, if_neg h]

theorem toLower_toLower (c : Char) : c.toLower.toLower = c.toLower := by
  have hn : ¬ (65 ≤ c.toLower.toNat ∧ c.toLower.toNat ≤ 90) := by
    rw [toNat_toLower]
    by_cases h : 65 ≤ c.toNat ∧ c.toNat ≤ 90
    · rw [if_pos h]; omega
    · rw [if_neg h]; omega
  rw [toLower_eq c.toLower, if_neg hn]

theorem isPyWS_eq_false_of_ge {d : Char} (h : 33 ≤ d.toNat) : isPyWS d = false := by
  unfold isPyWS
  simp only [Bool.or_eq_false_iff, beq_eq_false_iff_ne, ne_eq]
  omega

theorem isPyWS_toLower (c : Char) : isPyWS c.toLower = isPyWS c := by
  by_cases h : 65 ≤ c.toNat ∧ c.toNat ≤ 90
  · have h1 : c.toLower.toNat = c.toNat + 32 := by rw [toNat_toLower, if_pos h]
    rw [isPyWS_eq_false_of_ge (by omega), isPyWS_eq_false_of_ge (by omega)]
  · have h1 : c.toLower = c := by rw [toLower_eq, if_neg h]
    rw [h1]

theorem beq_space_eq_toNat (d : Char) : (d == ' ') = (d.toNat == 32) := by
  by_cases hd : d = ' '
  · subst hd; rfl
  · have hn : d.toNat ≠ 32 := by
      intro hn
      apply hd
      have h2 := Char.ofNat_toNat d
      rw [hn] at h2
      rw [← h2]
    rw [beq_eq_false_iff_ne.mpr hd, beq_eq_false_iff_ne.mpr hn]

theorem beq_space_toLower (c : Char) : (c.toLower == ' ') = (c == ' ') := by
  rw [beq_space_eq_toNat, beq_space_eq_toNat, toNat_toLower]
  by_cases h : 65 ≤ c.toNat ∧ c.toNat ≤ 90
  · have h1 : (c.toNat + 32 == 32) = false := beq_eq_false_iff_ne.mpr (by omega)
    have h2 : (c.toNat == 32) = false := beq_eq_false_iff_ne.mpr (by omega)
    rw [if_pos h, h1, h2]
  · rw [if_neg h]

/-! ### List-level lemmas: the ends of a stripped list are not whitespace -/

theorem head_dropWhile_not (p : Char → Bool) (l : List Char) :
    ∀ a, (l.dropWhile p).head? = some a → p a = false := by
  induction l with
  | nil => intro a h; simp at h
  | cons b t ih =>
    intro a h
    by_cases hb : p b
    · rw [List.dropWhile_cons_of_pos hb] at h
      exact ih a h
    · rw [List.dropWhile_cons_of_neg hb] at h
      simp only [List.head?_cons, Option.some.injEq] at h
      simp only [Bool.not_eq_true] at hb
      rw [← h]
      exact hb

theorem getLast_dropWhile_of_ne_nil (p : Char → Bool) (l : List Char)
    (h : l.dropWhile p ≠ []) : (l.dropWhile p).getLast? = l.getLast? := by
  induction l with
  | nil => simp at h
  | cons b t ih =>
    by_cases hb : p b
    · rw [List.dropWhile_cons_of_pos hb] at h ⊢
      have ht : t ≠ [] := by
        intro he; rw [he] at h; simp at h
      rw [ih h]
      cases t with
      | nil => exact absurd rfl ht
      | cons c u => rw [List.getLast?_cons_cons]
    · rw [List.dropWhile_cons_of_neg hb]

theorem pyStrip_noLeadWS (l : List Char) : noLeadWS (pyStripList l) := by
  intro a h
  unfold pyStripList at h
  rw [List.head?_reverse] at h
  set w := (l.dropWhile isPyWS).reverse.dropWhile isPyWS with hw
  have hne : w ≠ [] := by
    intro he; rw [he] at h; simp at h
  rw [getLast_dropWhile_of_ne_nil _ _ hne, List.getLast?_reverse] at h
  exact head_dropWhile_not isPyWS l a h

theorem pyStrip_noTrailWS (l : List Char) : noTrailWS (pyStripList l) := by
  intro a h
  unfold pyStripList at h
  rw [List.getLast?_reverse] at h
  exact head_dropWhile_not isPyWS _ a h

theorem noLeadWS_map_toLower {l : List Char} (h : noLeadWS l) :
    noLeadWS (l.map Char.toLower) := by
  intro a ha
  rw [List.head?_map] at ha
  cases hh : l.head? with
  | none => rw [hh] at ha; simp at ha
  | some b =>
    rw [hh] at ha
    simp at ha
    rw [← ha, isPyWS_toLower]
    exact h b hh

theorem getLast?_map_toLower (l : List Char) :
    (l.map Char.toLower).getLast? = l.getLast?.map Char.toLower := by
  rw [← List.head?_reverse, ← List.map_reverse, List.head?_map, List.head?_reverse]

theorem noTrailWS_map_toLower {l : List Char} (h : noTrailWS l) :
    noTrailWS (l.map Char.toLower) := by
  intro a ha
  rw [getLast?_map_toLower] at ha
  cases hh : l.getLast? with
  | none => rw [hh] at ha; simp at ha
  | some b =>
    rw [hh] at ha
    simp at ha
    rw [← ha, isPyWS_toLower]
    exact h b hh

theorem not_space_of_not_ws {c : Char} (h : isPyWS c = false) : (!(c == ' ')) = true := by
  by_cases hc : c = ' '
  · subst hc
    exact absurd h (by decide)
  · simp [hc]

theorem noLeadWS_removeSpaces {l : List Char} (h : noLeadWS l) :
    noLeadWS (removeSpaces l) := by
  intro a ha
  cases l with
  | nil => simp [removeSpaces] at ha
  | cons b t =>
    have hb : isPyWS b = false := h b rfl
    unfold removeSpaces at ha
    rw [List.filter_cons_of_pos (p := fun c => !(c == ' ')) (not_space_of_not_ws hb)] at ha
    simp only [List.head?_cons, Option.some.injEq] at ha
    rw [← ha]; exact hb

theorem noTrailWS_removeSpaces {l : List Char} (h : noTrailWS l) :
    noTrailWS (removeSpaces l) := by
  intro a ha
  unfold removeSpaces at ha
  rw [← List.head?_reverse, ← List.filter_reverse] at ha
  cases hr : l.reverse with
  | nil => rw [hr] at ha; simp at ha
  | cons b t =>
    have hlast : l.getLast? = some b := by rw [← List.head?_reverse, hr]; rfl
    have hb : isPyWS b = false := h b hlast
    rw [hr, List.filter_cons_of_pos (p := fun c => !(c == ' ')) (not_space_of_not_ws hb)] at ha
    simp only [List.head?_cons, Option.some.injEq] at ha
    rw [← ha]; exact hb

theorem dropWhile_of_noLeadWS {l : List Char} (h : noLeadWS l) :
    l.dropWhile isPyWS = l := by
  cases l with
  | nil => rfl
  | cons b t => exact List.dropWhile_cons_of_neg (by simp [h b rfl])

theorem pyStrip_fix {l : List Char} (h1 : noLeadWS l) (h2 : noTrailWS l) :
    pyStripList l = l := by
  unfold pyStripList
  rw [dropWhile_of_noLeadWS h1]
  have hrev : noLeadWS l.reverse := by
    intro a ha
    rw [List.head?_reverse] at ha
    exact h2 a ha
  rw [dropWhile_of_noLeadWS hrev, List.reverse_reverse]

/-! ### Idempotence of normalization -/

theorem removeSpaces_map_toLower (l : List Char) :
    removeSpaces (l.map Char.toLower) = (removeSpaces l).map Char.toLower := by
  unfold removeSpaces
  rw [List.filter_map]
  have hp : ∀ a ∈ l, ((fun c => !(c == ' ')) ∘ Char.toLower) a = (fun c => !(c == ' ')) a := by
    intro a _
    simp only [Function.comp_apply]
    rw [beq_space_toLower]
  rw [List.filter_congr hp]

theorem map_toLower_normList (l : List Char) :
    (normList l).map Char.toLower = normList l := by
  unfold normList
  rw [removeSpaces_map_toLower, List.map_map]
  have hc : (Char.toLower ∘ Char.toLower) = Char.toLower := by
    funext c
    exact toLower_toLower c
  rw [hc]

theorem removeSpaces_normList (l : List Char) :
    removeSpaces (normList l) = normList l := by
  unfold normList removeSpaces
  rw [List.filter_filter]
  exact List.filter_congr (fun a _ => Bool.and_self _)

theorem pyStrip_normList (l : List Char) : pyStripList (normList l) = normList l :=
  pyStrip_fix
    (noLeadWS_removeSpaces (noLeadWS_map_toLower (pyStrip_noLeadWS l)))
    (noTrailWS_removeSpaces (noTrailWS_map_toLower (pyStrip_noTrailWS l)))

theorem normList_idem (l : List Char) : normList (normList l) = normList l := by
  have h : normList (normList l) =
      removeSpaces ((pyStripList (normList l)).map Char.toLower) := rfl
  rw [h, pyStrip_normList, map_toLower_normList, removeSpaces_normList]

/-! ### Claim C8 -/

/-- C8: the email normalization is idempotent — normalizing twice gives
the same string as normalizing once — and is case- and
whitespace-insensitive on the quoted example: `" A@B.com "` and
`"a@b.com"` normalize identically. -/
theorem c8_normalize_idempotent_insensitive :
    (∀ x : String, pyNormalize (pyNormalize x) = pyNormalize x) ∧
    pyNormalize " A@B.com " = pyNormalize "a@b.com" := by
  constructor
  · intro x
    show (⟨normList (normList x.data)⟩ : String) = ⟨normList x.data⟩
    rw [normList_idem]
  · decide

/-! ### Claim C1 -/

/-- C1, counterexample: at the input `"a\tb@x.com"` the normalization the
code performs (strip, lowercase, remove interior space characters) is
not the one the claim states (strip, lowercase, remove ALL interior
whitespace characters): the code keeps the interior tab. -/
theorem c1_counterexample :
    ¬ (pyNormalize "a\tb@x.com" = claimedNormalize "a\tb@x.com") := by decide

/-- C1 as amended: the normalization used by the lookup endpoints trims
surrounding whitespace, lowercases, and removes all interior space
(U+0020) characters — other interior whitespace such as a tab is kept —
and the lookup is an exact match of the normalized key against the
index, with no fuzzy or partial matching. -/
theorem c1_amended_normalization :
    (∀ s : String, pyNormalize s = amendedNormalize s) ∧
    (∀ (idx : String → Option String) (hs : Bool) (e : String),
      verify_email idx hs e =
        match idx (amendedNormalize e) with
        | some n => VerifyResult.ok n hs
        | none => VerifyResult.notFound 404) := by
  constructor
  · intro s; rfl
  · intro idx hs e; rfl

/-! ### The roster index: the fold realizes last-write-wins -/

theorem buildIndexRows_eq (ei ni : Nat) (rows : List (List (Option String))) (k : String) :
    buildIndexRows ei ni rows k =
      ((rows.filter (fun row => decide (rowKey ei row = some k))).getLast?).map
        (storedName ni) := by
  induction rows using List.reverseRecOn with
  | nil => rfl
  | append_singleton rs r ih =>
    have hfold : buildIndexRows ei ni (rs ++ [r]) =
        indexStep ei ni (buildIndexRows ei ni rs) r := by
      unfold buildIndexRows
      rw [List.foldl_append]
      rfl
    rw [hfold, List.filter_append]
    cases hc : (r[ei]?).join with
    | none =>
      have hpred : (decide (rowKey ei r = some k)) = false := by
        unfold rowKey
        rw [hc]
        simp
      have hfil :
          List.filter (fun row => decide (rowKey ei row = some k)) [r] = [] := by
        rw [List.filter_cons_of_neg (p := fun row => decide (rowKey ei row = some k))
          (by simp [hpred])]
        rfl
      have hstep : indexStep ei ni (buildIndexRows ei ni rs) r =
          buildIndexRows ei ni rs := by
        unfold indexStep
        rw [hc]
      rw [hstep, ih, hfil, List.append_nil]
    | some v =>
      have hstep : indexStep ei ni (buildIndexRows ei ni rs) r =
          fun q => if q = pyNormalize v then some (storedName ni r)
                   else buildIndexRows ei ni rs q := by
        unfold indexStep
        rw [hc]
      rw [hstep]
      by_cases hk : pyNormalize v = k
      · have hpred : (decide (rowKey ei r = some k)) = true := by
          unfold rowKey
          rw [hc]
          simp [hk]
        have hfil :
            List.filter (fun row => decide (rowKey ei row = some k)) [r] = [r] := by
          rw [List.filter_cons_of_pos (p := fun row => decide (rowKey ei row = some k))
            hpred]
          rfl
        rw [hfil, List.getLast?_concat]
        show (if k = pyNormalize v then some (storedName ni r)
              else buildIndexRows ei ni rs k) = _
        rw [if_pos hk.symm]
        rfl
      · have hpred : (decide (rowKey ei r = some k)) = false := by
          unfold rowKey
          rw [hc]
          simp [hk]
        have hfil :
            List.filter (fun row => decide (rowKey ei row = some k)) [r] = [] := by
          rw [List.filter_cons_of_neg (p := fun row => decide (rowKey ei row = some k))
            (by simp [hpred])]
          rfl
        rw [hfil, List.append_nil]
        show (if k = pyNormalize v then some (storedName ni r)
              else buildIndexRows ei ni rs k) = _
        rw [if_neg (fun h => hk h.symm), ih]

/-! ### Claim C2 -/

/-- C2: when the email and name columns are discovered and two or more
rows share a normalized email key, the built index maps that key to the
display name stored from the LAST such row — later rows silently
overwrite earlier ones — so the lookup of the normalized email returns
the name of the last row carrying it. -/
theorem c2_roster_last_write_wins (t : Table) (ei ni : Nat) (k : String)
    (r : List (Option String))
    (he : discoverIdx "email" t.header = some ei)
    (hn : discoverIdx "name" t.header = some ni)
    (_hdup : 2 ≤ (t.rows.filter (fun row => decide (rowKey ei row = some k))).length)
    (hlast : (t.rows.filter (fun row => decide (rowKey ei row = some k))).getLast? = some r) :
    buildIndex (some t) k = some (storedName ni r) := by
  show (match discoverIdx "email" t.header, discoverIdx "name" t.header with
        | some ei, some ni => buildIndexRows ei ni t.rows k
        | _, _ => none) = some (storedName ni r)
  rw [he, hn]
  show buildIndexRows ei ni t.rows k = some (storedName ni r)
  rw [buildIndexRows_eq, hlast]
  rfl

/-- Witness for C2: a roster whose two rows both normalize to the key
`"a@x.com"`; the index returns the second row's (stripped) name. -/
theorem c2_witness :
    buildIndex (some ⟨["S.No", " Email ", "Student Name"],
      [[some "1", some "a@x.com", some "First Person"],
       [some "2", some " A@X.COM", some " Second Person "]]⟩) "a@x.com" =
      some "Second Person" := by
  have h := c2_roster_last_write_wins
    ⟨["S.No", " Email ", "Student Name"],
      [[some "1", some "a@x.com", some "First Person"],
       [some "2", some " A@X.COM", some " Second Person "]]⟩
    1 2 "a@x.com" [some "2", some " A@X.COM", some " Second Person "]
    (by decide) (by decide) (by decide) (by decide)
  exact h.trans (by decide)

/-! ### Claim C6 -/

/-- C6: when no (stripped) header column contains "email"
case-insensitively, or none contains "name", the startup build leaves
the index empty — every lookup on it answers `none`, exactly as for an
absent key, and the build itself is a total function, never a crash. -/
theorem c6_missing_columns_empty_index (t : Table) (k : String)
    (h : discoverIdx "email" t.header = none ∨ discoverIdx "name" t.header = none) :
    buildIndex (some t) k = none := by
  show (match discoverIdx "email" t.header, discoverIdx "name" t.header with
        | some ei, some ni => buildIndexRows ei ni t.rows k
        | _, _ => none) = none
  rcases h with h | h
  · rw [h]
  · rw [h]
    cases discoverIdx "email" t.header <;> rfl

/-- Witness for C6: a roster with headers `["id", "score"]` (no email
column) yields an empty index: the lookup of `"a@b.com"` is `none`. -/
theorem c6_witness :
    buildIndex (some ⟨["id", "score"], [[some "1", some "2"]]⟩) "a@b.com" = none :=
  c6_missing_columns_empty_index ⟨["id", "score"], [[some "1", some "2"]]⟩ "a@b.com"
    (Or.inl (by decide))

/-! ### Claim C3 -/

theorem generateCertificateBody_cases (idx : String → Option String)
    (render : String → Except String String) (e : String) :
    (∃ p, generateCertificateBody idx render e = .ok (.file p)) ∨
    (∃ ex, generateCertificateBody idx render e = .error ex) := by
  unfold generateCertificateBody
  split
  · exact Or.inr ⟨_, rfl⟩
  · split
    · exact Or.inr ⟨_, rfl⟩
    · split
      · exact Or.inl ⟨_, rfl⟩
      · exact Or.inr ⟨_, rfl⟩

/-- C3 is refuted by the code: the 404 raised for an unknown email sits
inside the `try` block, the blanket `except Exception` catches it
(fastapi HTTPException subclasses Exception) and re-raises it as a 500
whose detail is `str(e)`.  First conjunct: with an empty index and a
rendering function that succeeds, asking for `"bob@x.com"` answers
500 with detail "404: Name not found", not 404.  Second conjunct: no
input whatsoever makes this endpoint answer a 404 — every outcome is
either a file response or a 500. -/
theorem c3_unknown_email_returns_500 :
    generate_certificate_endpoint (fun _ => none)
      (fun n => .ok (GENERATED_DIR ++ "/certificate_" ++ n ++ ".pdf")) "bob@x.com" =
      .httpError 500 "404: Name not found" ∧
    (∀ (idx : String → Option String) (render : String → Except String String)
        (e : String),
      (∃ p, generate_certificate_endpoint idx render e = .file p) ∨
      (∃ d, generate_certificate_endpoint idx render e = .httpError 500 d)) := by
  constructor
  · decide
  · intro idx render e
    rcases generateCertificateBody_cases idx render e with ⟨p, hp⟩ | ⟨ex, hex⟩
    · left
      refine ⟨p, ?_⟩
      unfold generate_certificate_endpoint
      rw [hp]
    · right
      refine ⟨exnStr ex, ?_⟩
      unfold generate_certificate_endpoint
      rw [hex]

/-! ### Claim C4 -/

/-- C4: for every environment and display name, the drawn text sits at
`x = ((canvasWidth - textWidth) / 2) + 50`, where `textWidth` is the
measured width of the name at font size 25 in the selected typeface,
and at the fixed `y = 235` (reportlab measures from the bottom of the
page). -/
theorem c4_text_placement (env : RenderEnv) (name : String) :
    (create_certificate env name).textX =
      (((create_certificate env name).pageW -
        env.stringWidth name (create_certificate env name).fontName 25) / 2) + 50 ∧
    (create_certificate env name).textY = 235 :=
  ⟨rfl, rfl⟩

/-! ### Claim C5 -/

/-- C5: the artifact is persisted under the fixed output directory with
filename `certificate_{name with every space replaced by an
underscore}.pdf`; in particular the artifact for "Jane Doe" is named
exactly `certificate_Jane_Doe.pdf`. -/
theorem c5_artifact_filename (env : RenderEnv) (name : String) :
    (create_certificate env name).filename =
      "certificate_" ++ specUnderscoreName name ++ ".pdf" ∧
    (create_certificate env name).outputPath =
      GENERATED_DIR ++ "/" ++ (create_certificate env name).filename ∧
    (create_certificate env "Jane Doe").filename = "certificate_Jane_Doe.pdf" := by
  refine ⟨rfl, rfl, ?_⟩
  rfl

/-! ### Claim C7 -/

/-- C7: with the outbound-mail host, user and password all absent from
the environment, the dispatcher returns at once as a no-op — no message
is built and no network call is attempted. -/
theorem c7_missing_credentials_noop (env : SmtpEnv) (recipient pdfPath : String)
    (_hh : env.host = none) (hu : env.user = none) (_hp : env.password = none) :
    send_email_async env recipient pdfPath = SendOutcome.noop := by
  unfold send_email_async
  rw [hu]
  rfl

/-- Witness for C7: the empty SMTP environment yields the no-op. -/
theorem c7_witness :
    send_email_async ⟨none, none, none⟩ "a@b.com" "generated/certificate_A.pdf" =
      SendOutcome.noop :=
  c7_missing_credentials_noop ⟨none, none, none⟩ "a@b.com"
    "generated/certificate_A.pdf" rfl rfl rfl

/-! ### Claim C10 -/

/-- C10: the admin login succeeds (status "success" with the fixed
token "fake-jwt-token") exactly when the username is "admin" and the
password is "admin123"; every other pair gets a 401 with detail
"Invalid credentials". -/
theorem c10_admin_login (u p : String) :
    (admin_login u p = LoginResult.success "success" "fake-jwt-token" ↔
      (u = "admin" ∧ p = "admin123")) ∧
    (¬ (u = "admin" ∧ p = "admin123") →
      admin_login u p = LoginResult.httpError 401 "Invalid credentials") := by
  by_cases h : u = "admin" ∧ p = "admin123"
  · refine ⟨⟨fun _ => h, fun _ => ?_⟩, fun hn => absurd h hn⟩
    unfold admin_login
    rw [if_pos h]
  · refine ⟨⟨fun hs => ?_, fun hh => absurd hh h⟩, fun _ => ?_⟩
    · unfold admin_login at hs
      rw [if_neg h] at hs
      exact LoginResult.noConfusion hs
    · unfold admin_login
      rw [if_neg h]

/-- Witness for C10: a wrong password gets the 401. -/
theorem c10_witness :
    admin_login "admin" "wrong" = LoginResult.httpError 401 "Invalid credentials" :=
  (c10_admin_login "admin" "wrong").2 (by decide)

/-! ### Claim C9 -/

theorem dictInsert_keys_of_mem {d : List (Int × Nat)} {kv : Int × Nat}
    (h : kv.1 ∈ d.map Prod.fst) :
    (dictInsert d kv).map Prod.fst = d.map Prod.fst := by
  unfold dictInsert
  rw [if_pos h, List.map_map]
  have hc : (Prod.fst ∘ fun p : Int × Nat => if p.1 = kv.1 then (p.1, kv.2) else p) =
      Prod.fst := by
    funext p
    simp only [Function.comp_apply]
    by_cases hp : p.1 = kv.1
    · rw [if_pos hp]
    · rw [if_neg hp]
  rw [hc]

theorem foldl_dictInsert_keys : ∀ (l d : List (Int × Nat)),
    (∀ kv ∈ l, kv.1 ∈ d.map Prod.fst) →
    (l.foldl dictInsert d).map Prod.fst = d.map Prod.fst := by
  intro l
  induction l with
  | nil => intro d _; rfl
  | cons a t ih =>
    intro d h
    have ha : a.1 ∈ d.map Prod.fst := h a (List.mem_cons_self a t)
    have hk := dictInsert_keys_of_mem ha
    rw [List.foldl_cons,
      ih (dictInsert d a) (fun kv hkv => by
        rw [hk]
        exact h kv (List.mem_cons_of_mem a hkv)),
      hk]

/-- C9: over every list of feedback records (ratings between 1 and 5,
as the data model fixes), the stats endpoint reports the record count,
the mean rating rounded to two decimals, and a histogram whose key set
is exactly {1, 2, 3, 4, 5}; on records rated `[5, 5, 4, 3, 5]` it
yields `average_rating = 4.4` (the rational 22/5) and the counts
`{1: 0, 2: 0, 3: 1, 4: 1, 5: 3}`. -/
theorem c9_admin_stats :
    (∀ records : List FeedbackRecord,
      (∀ r ∈ records, 1 ≤ r.rating ∧ r.rating ≤ 5) →
      (get_admin_stats records).total_feedback = records.length ∧
      (get_admin_stats records).rating_counts.map Prod.fst = [1, 2, 3, 4, 5] ∧
      (records ≠ [] →
        (get_admin_stats records).average_rating =
          round2 ((records.map (fun r => (r.rating : ℚ))).sum / (records.length : ℚ)))) ∧
    get_admin_stats [⟨"a", 5⟩, ⟨"b", 5⟩, ⟨"c", 4⟩, ⟨"d", 3⟩, ⟨"e", 5⟩] =
      { total_feedback := 5
        average_rating := 22 / 5
        rating_counts := [(1, 0), (2, 0), (3, 1), (4, 1), (5, 3)] } := by
  constructor
  · intro records h
    refine ⟨rfl, ?_, ?_⟩
    · show (((records.map (fun r => r.rating)).dedup.map
          (fun k => (k, (records.map (fun r => r.rating)).count k))).foldl dictInsert
            [(1, 0), (2, 0), (3, 0), (4, 0), (5, 0)]).map Prod.fst = [1, 2, 3, 4, 5]
      rw [foldl_dictInsert_keys]
      · decide
      · intro kv hkv
        obtain ⟨k, hk, rfl⟩ := List.mem_map.mp hkv
        have hmem : k ∈ records.map (fun r => r.rating) := List.mem_dedup.mp hk
        obtain ⟨rec, hrec, rfl⟩ := List.mem_map.mp hmem
        have hb := h rec hrec
        show rec.rating ∈ [(1 : Int), 2, 3, 4, 5]
        simp only [List.mem_cons, List.not_mem_nil, or_false]
        omega
    · intro hne
      show (if records.isEmpty then (0 : ℚ)
            else round2 ((records.map (fun r => (r.rating : ℚ))).sum /
              (records.length : ℚ))) = _
      rw [if_neg (by simp [hne])]
  · have havg : (get_admin_stats
        [⟨"a", 5⟩, ⟨"b", 5⟩, ⟨"c", 4⟩, ⟨"d", 3⟩, ⟨"e", 5⟩]).average_rating = 22 / 5 := by
      show (if ([⟨"a", 5⟩, ⟨"b", 5⟩, ⟨"c", 4⟩, ⟨"d", 3⟩,
                  ⟨"e", 5⟩] : List FeedbackRecord).isEmpty then (0 : ℚ)
            else round2 ((([⟨"a", 5⟩, ⟨"b", 5⟩, ⟨"c", 4⟩, ⟨"d", 3⟩,
                  ⟨"e", 5⟩] : List FeedbackRecord).map (fun r => (r.rating : ℚ))).sum /
              (([⟨"a", 5⟩, ⟨"b", 5⟩, ⟨"c", 4⟩, ⟨"d", 3⟩,
                  ⟨"e", 5⟩] : List FeedbackRecord).length : ℚ))) = 22 / 5
      rw [if_neg (by decide)]
      have hsum : ((([⟨"a", 5⟩, ⟨"b", 5⟩, ⟨"c", 4⟩, ⟨"d", 3⟩,
          ⟨"e", 5⟩] : List FeedbackRecord).map (fun r => (r.rating : ℚ))).sum /
            (([⟨"a", 5⟩, ⟨"b", 5⟩, ⟨"c", 4⟩, ⟨"d", 3⟩,
              ⟨"e", 5⟩] : List FeedbackRecord).length : ℚ)) = 440 / 100 := by
        norm_num
      rw [hsum]
      unfold round2 roundHalfEven
      norm_num
    have h1 : (get_admin_stats
        [⟨"a", 5⟩, ⟨"b", 5⟩, ⟨"c", 4⟩, ⟨"d", 3⟩, ⟨"e", 5⟩]).total_feedback = 5 := rfl
    have h3 : (get_admin_stats
        [⟨"a", 5⟩, ⟨"b", 5⟩, ⟨"c", 4⟩, ⟨"d", 3⟩, ⟨"e", 5⟩]).rating_counts =
          [(1, 0), (2, 0), (3, 1), (4, 1), (5, 3)] := by decide
    calc get_admin_stats [⟨"a", 5⟩, ⟨"b", 5⟩, ⟨"c", 4⟩, ⟨"d", 3⟩, ⟨"e", 5⟩] =
        ⟨(get_admin_stats [⟨"a", 5⟩, ⟨"b", 5⟩, ⟨"c", 4⟩, ⟨"d", 3⟩,
            ⟨"e", 5⟩]).total_feedback,
         (get_admin_stats [⟨"a", 5⟩, ⟨"b", 5⟩, ⟨"c", 4⟩, ⟨"d", 3⟩,
            ⟨"e", 5⟩]).average_rating,
         (get_admin_stats [⟨"a", 5⟩, ⟨"b", 5⟩, ⟨"c", 4⟩, ⟨"d", 3⟩,
            ⟨"e", 5⟩]).rating_counts⟩ := rfl
      _ = ⟨5, 22 / 5, [(1, 0), (2, 0), (3, 1), (4, 1), (5, 3)]⟩ := by
          rw [h1, havg, h3]

/-- Witness for C9: the general statement applied to the quoted record
list, every hypothesis discharged concretely. -/
theorem c9_witness :
    (get_admin_stats [⟨"a", 5⟩, ⟨"b", 5⟩, ⟨"c", 4⟩, ⟨"d", 3⟩,
        ⟨"e", 5⟩]).total_feedback = 5 ∧
    (get_admin_stats [⟨"a", 5⟩, ⟨"b", 5⟩, ⟨"c", 4⟩, ⟨"d", 3⟩,
        ⟨"e", 5⟩]).rating_counts.map Prod.fst = [1, 2, 3, 4, 5] ∧
    (get_admin_stats [⟨"a", 5⟩, ⟨"b", 5⟩, ⟨"c", 4⟩, ⟨"d", 3⟩,
        ⟨"e", 5⟩]).average_rating =
      round2 ((([⟨"a", 5⟩, ⟨"b", 5⟩, ⟨"c", 4⟩, ⟨"d", 3⟩,
        ⟨"e", 5⟩] : List FeedbackRecord).map (fun r => (r.rating : ℚ))).sum /
          (([⟨"a", 5⟩, ⟨"b", 5⟩, ⟨"c", 4⟩, ⟨"d", 3⟩,
            ⟨"e", 5⟩] : List FeedbackRecord).length : ℚ)) := by
  have h := c9_admin_stats.1 [⟨"a", 5⟩, ⟨"b", 5⟩, ⟨"c", 4⟩, ⟨"d", 3⟩, ⟨"e", 5⟩]
    (by decide)
  have hl : ([⟨"a", 5⟩, ⟨"b", 5⟩, ⟨"c", 4⟩, ⟨"d", 3⟩,
      ⟨"e", 5⟩] : List FeedbackRecord) ≠ [] := by decide
  exact ⟨h.1, h.2.1, h.2.2 hl⟩
